import Mathlib

/-!
Verification of the concurrent load-test and results-aggregation engine of
`benchmarks/test_all.py`.

The embedding models durations and wall-clock times as rationals (`ℚ`).
Python's `statistics` routines used by the harness (`mean`, `median`,
`quantiles` with its default `exclusive` method) are transcribed from the
CPython `statistics` module, since the harness's numeric output is defined
by them.  Network effects are modelled by an explicit environment value per
request (`NetResult` / `PollEvent`): a probe either observes an HTTP
response with a status code, or a transport failure with a message, each
with a measured wall-clock duration.
-/

namespace TestAll

/-- `data[i]` for rational lists, with the (never-reached) default 0. -/
def nth (l : List ℚ) (i : ℕ) : ℚ := l.getD i 0

/-- Python `sorted(data)` on a list of rationals. -/
def sortedQ (l : List ℚ) : List ℚ := List.insertionSort (· ≤ ·) l

/-- CPython `statistics.quantiles(data, n=n)` with the default
`method='exclusive'`: cut points `i = 1 .. n-1`, each located at rank
`i*(ld+1)/n` of the sorted data, linearly interpolated between the two
adjacent order statistics after clamping the base index to `1 .. ld-1`.
CPython raises `StatisticsError` when `data` has fewer than two elements;
the harness only calls it under a `len(durations) > 1` guard. -/
def quantilesExclusive (data : List ℚ) (n : ℕ) : List ℚ :=
  let d := sortedQ data
  let ld := d.length
  let m := ld + 1
  (List.range (n - 1)).map (fun k =>
    let i := k + 1
    let j0 := i * m / n
    let j := if j0 < 1 then 1 else if j0 > ld - 1 then ld - 1 else j0
    let delta : ℤ := (i * m : ℤ) - (j * n : ℤ)
    (nth d (j - 1) * ((n : ℚ) - (delta : ℚ)) + nth d j * (delta : ℚ)) / (n : ℚ))

/-- The `i`-th cut point (1-based, `1 ≤ i ≤ n-1`) of the exclusive-method
`n`-bucket quantile split, written out directly: rank position
`i*(ld+1)/n`, base index clamped to `1 .. ld-1`, and the value linearly
interpolated between order statistics `j-1` and `j` with the exact integer
weight `delta = i*(ld+1) - j*n`. -/
def exclusiveCut (data : List ℚ) (n i : ℕ) : ℚ :=
  let d := sortedQ data
  let ld := d.length
  let m := ld + 1
  let j0 := i * m / n
  let j := if j0 < 1 then 1 else if j0 > ld - 1 then ld - 1 else j0
  let delta : ℤ := (i * m : ℤ) - (j * n : ℤ)
  (nth d (j - 1) * ((n : ℚ) - (delta : ℚ)) + nth d j * (delta : ℚ)) / (n : ℚ)

/-- `statistics.quantiles(durations, n=20)[18] if len(durations) > 1 else durations[0]`. -/
def p95_latency (durations : List ℚ) : ℚ :=
  if durations.length > 1 then nth (quantilesExclusive durations 20) 18
  else nth durations 0

/-- `statistics.quantiles(durations, n=100)[98] if len(durations) > 1 else durations[0]`. -/
def p99_latency (durations : List ℚ) : ℚ :=
  if durations.length > 1 then nth (quantilesExclusive durations 100) 98
  else nth durations 0

/-- CPython `statistics.mean`: exact sum divided by the count. -/
def mean (ds : List ℚ) : ℚ := ds.sum / ds.length

/-- CPython `statistics.median`: sort; middle element for odd length, the
average of the two middle elements for even length. -/
def median (ds : List ℚ) : ℚ :=
  let d := sortedQ ds
  let n := d.length
  if n % 2 = 1 then nth d (n / 2)
  else (nth d (n / 2 - 1) + nth d (n / 2)) / 2

/-- Python `min` over a list (the harness only applies it to nonempty
duration lists; the `[]` case is an unreachable default). -/
def listMin : List ℚ → ℚ
  | [] => 0
  | h :: t => t.foldl min h

/-- Python `max` over a list (same remark as `listMin`). -/
def listMax : List ℚ → ℚ
  | [] => 0
  | h :: t => t.foldl max h

/-- The network's behaviour for one HTTP GET: either a response with a
status code, or a raised transport exception with a message; both carry the
wall-clock duration the attempt took. -/
inductive NetResult where
  | response (status_code : ℕ) (duration : ℚ)
  | failure (error : String) (duration : ℚ)
  deriving DecidableEq, Repr

/-- The measured duration of a network interaction. -/
def NetResult.duration : NetResult → ℚ
  | .response _ d => d
  | .failure _ d => d

/-- The result dictionary produced by one probe.  Keys absent from the
Python dict are `none`. -/
structure ProbeOutcome where
  success : Bool
  duration : ℚ
  status_code : Option ℕ := none
  error : Option String := none
  deriving DecidableEq, Repr

/-- `test_single_request`: one timed GET.  A response yields
`{success: status == 200, duration, status_code}`; an exception is caught
and yields `{success: false, duration, error}`. -/
def test_single_request : NetResult → ProbeOutcome
  | .response s d => { success := s == 200, duration := d, status_code := some s }
  | .failure m d => { success := false, duration := d, error := some m }

/-- The inner `make_request` coroutine of `test_concurrent_async`:
a response yields `{success: status == 200, duration}` (no status_code
key); an exception yields `{success: false, duration, error}`. -/
def make_request : NetResult → ProbeOutcome
  | .response s d => { success := s == 200, duration := d }
  | .failure m d => { success := false, duration := d, error := some m }

/-- The collection loop shared by both drivers: for each outcome, append
its duration to `durations` if it succeeded, else increment `errors`. -/
def collect (outcomes : List ProbeOutcome) : List ℚ × ℕ :=
  outcomes.foldl
    (fun acc r => if r.success then (acc.1 ++ [r.duration], acc.2) else (acc.1, acc.2 + 1))
    ([], 0)

/-- The summary dictionary returned by a driver.  Keys absent from the
returned Python dict are `none`. -/
structure TestSummary where
  total_time : ℚ
  requests_per_second : Option ℚ := none
  mean_latency : Option ℚ := none
  median_latency : Option ℚ := none
  p95_latency : Option ℚ := none
  p99_latency : Option ℚ := none
  min_latency : Option ℚ := none
  max_latency : Option ℚ := none
  errors : ℕ
  success_rate : ℚ
  deriving DecidableEq, Repr

/-- The tail of `test_concurrent_sync`: build the summary dict from the
collected durations, the error count and the measured total wall time. -/
def summarize_sync (durations : List ℚ) (errors : ℕ) (total_time : ℚ) : TestSummary :=
  if durations = [] then
    { total_time := total_time, errors := errors, success_rate := 0 }
  else
    { total_time := total_time
      requests_per_second := some ((durations.length : ℚ) / total_time)
      mean_latency := some (mean durations)
      median_latency := some (median durations)
      p95_latency := some (p95_latency durations)
      p99_latency := some (p99_latency durations)
      min_latency := some (listMin durations)
      max_latency := some (listMax durations)
      errors := errors
      success_rate := (durations.length : ℚ) / ((durations.length : ℚ) + (errors : ℚ)) }

/-- The tail of `test_concurrent_async`: textually the same construction,
duplicated in the source. -/
def summarize_async (durations : List ℚ) (errors : ℕ) (total_time : ℚ) : TestSummary :=
  if durations = [] then
    { total_time := total_time, errors := errors, success_rate := 0 }
  else
    { total_time := total_time
      requests_per_second := some ((durations.length : ℚ) / total_time)
      mean_latency := some (mean durations)
      median_latency := some (median durations)
      p95_latency := some (p95_latency durations)
      p99_latency := some (p99_latency durations)
      min_latency := some (listMin durations)
      max_latency := some (listMax durations)
      errors := errors
      success_rate := (durations.length : ℚ) / ((durations.length : ℚ) + (errors : ℚ)) }

/-- `test_concurrent_sync`: N probes on a thread pool; `completed` is the
per-probe network behaviour in completion order (`as_completed` order), and
`total_time` the driver-measured wall time. -/
def test_concurrent_sync (completed : List NetResult) (total_time : ℚ) : TestSummary :=
  let r := collect (completed.map test_single_request)
  summarize_sync r.1 r.2 total_time

/-- `test_concurrent_async`: N probe tasks gathered on one event loop;
`results` is the per-probe network behaviour in task-launch order
(`asyncio.gather` preserves input order), and `total_time` the measured
wall time. -/
def test_concurrent_async (results : List NetResult) (total_time : ℚ) : TestSummary :=
  let r := collect (results.map make_request)
  summarize_async r.1 r.2 total_time

/-- The network's behaviour for one health poll of `wait_for_service`. -/
inductive PollEvent where
  | response (status_code : ℕ) (duration : ℚ)
  | failure (error : String) (duration : ℚ)
  deriving DecidableEq, Repr

/-- `wait_for_service`: while `elapsed < timeout`, issue a GET on the
health endpoint.  A 200 response returns `True`; any other response loops
again immediately; an exception is caught and followed by `sleep(1)`
before looping.  When the loop condition fails the function returns
`False`.  `events` scripts the network's successive answers; `none` means
the script ran out before the loop finished (in reality the network always
answers, so runs of interest end within the script). -/
def wait_for_service (events : List PollEvent) (timeout : ℚ) (elapsed : ℚ) : Option Bool :=
  if elapsed < timeout then
    match events with
    | [] => none
    | .response s d :: rest =>
      if s = 200 then some true
      else wait_for_service rest timeout (elapsed + d)
    | .failure _ d :: rest => wait_for_service rest timeout (elapsed + d + 1)
  else some false

/-- Ghost instrumentation for `wait_for_service`: the elapsed times at
which successive poll attempts are dispatched (same recursion structure,
recording the loop's clock at each GET). -/
def attemptTimes (events : List PollEvent) (timeout : ℚ) (elapsed : ℚ) : List ℚ :=
  if elapsed < timeout then
    match events with
    | [] => []
    | .response s d :: rest =>
      if s = 200 then [elapsed]
      else elapsed :: attemptTimes rest timeout (elapsed + d)
    | .failure _ d :: rest => elapsed :: attemptTimes rest timeout (elapsed + d + 1)
  else []

/-! Basic facts about sorting, indexing and list minima/maxima. -/

theorem sortedQ_sorted (l : List ℚ) : (sortedQ l).Sorted (· ≤ ·) :=
  List.sorted_insertionSort _ l

theorem sortedQ_perm (l : List ℚ) : (sortedQ l).Perm l :=
  List.perm_insertionSort _ l

theorem sortedQ_length (l : List ℚ) : (sortedQ l).length = l.length :=
  (sortedQ_perm l).length_eq

theorem sortedQ_congr {l l' : List ℚ} (h : l.Perm l') : sortedQ l = sortedQ l' :=
  List.eq_of_perm_of_sorted ((sortedQ_perm l).trans (h.trans (sortedQ_perm l').symm))
    (sortedQ_sorted l) (sortedQ_sorted l')

theorem nth_of_sorted_le {d : List ℚ} (hs : d.Sorted (· ≤ ·)) {i k : ℕ}
    (hik : i ≤ k) (hk : k < d.length) : nth d i ≤ nth d k := by
  have hi : i < d.length := lt_of_le_of_lt hik hk
  rw [nth, nth, List.getD_eq_getElem _ _ hi, List.getD_eq_getElem _ _ hk]
  have := hs.rel_get_of_le (a := ⟨i, hi⟩) (b := ⟨k, hk⟩) hik
  simpa using this

theorem nth_mem {d : List ℚ} {i : ℕ} (h : i < d.length) : nth d i ∈ d := by
  rw [nth, List.getD_eq_getElem _ _ h]
  exact List.getElem_mem h

theorem foldl_min_le_init : ∀ (t : List ℚ) (a : ℚ), t.foldl min a ≤ a
  | [], a => le_refl a
  | h :: t, a => le_trans (foldl_min_le_init t (min a h)) (min_le_left a h)

theorem foldl_min_le_mem : ∀ (t : List ℚ) (a x : ℚ), x ∈ t → t.foldl min a ≤ x := by
  intro t
  induction t with
  | nil => intro a x hx; cases hx
  | cons h t ih =>
    intro a x hx
    rcases List.mem_cons.mp hx with rfl | hx
    · exact le_trans (foldl_min_le_init t (min a x)) (min_le_right a x)
    · exact ih (min a h) x hx

theorem foldl_min_mem_or : ∀ (t : List ℚ) (a : ℚ), t.foldl min a = a ∨ t.foldl min a ∈ t := by
  intro t
  induction t with
  | nil => intro a; exact Or.inl rfl
  | cons h t ih =>
    intro a
    rcases ih (min a h) with heq | hmem
    · rw [List.foldl_cons, heq]
      rcases min_choice a h with h1 | h1
      · exact Or.inl h1
      · exact Or.inr (by rw [h1]; exact List.mem_cons_self h t)
    · exact Or.inr (List.mem_cons_of_mem h hmem)

theorem listMin_le {ds : List ℚ} {x : ℚ} (hx : x ∈ ds) : listMin ds ≤ x := by
  cases ds with
  | nil => cases hx
  | cons h t =>
    rcases List.mem_cons.mp hx with rfl | hx
    · exact foldl_min_le_init t x
    · exact foldl_min_le_mem t h x hx

theorem listMin_mem {ds : List ℚ} (h : ds ≠ []) : listMin ds ∈ ds := by
  cases ds with
  | nil => exact absurd rfl h
  | cons a t =>
    rcases foldl_min_mem_or t a with heq | hmem
    · rw [listMin, heq]; exact List.mem_cons_self a t
    · exact List.mem_cons_of_mem a hmem

theorem foldl_max_init_le : ∀ (t : List ℚ) (a : ℚ), a ≤ t.foldl max a
  | [], a => le_refl a
  | h :: t, a => le_trans (le_max_left a h) (foldl_max_init_le t (max a h))

theorem foldl_max_mem_le : ∀ (t : List ℚ) (a x : ℚ), x ∈ t → x ≤ t.foldl max a := by
  intro t
  induction t with
  | nil => intro a x hx; cases hx
  | cons h t ih =>
    intro a x hx
    rcases List.mem_cons.mp hx with rfl | hx
    · exact le_trans (le_max_right a x) (foldl_max_init_le t (max a x))
    · exact ih (max a h) x hx

theorem foldl_max_mem_or : ∀ (t : List ℚ) (a : ℚ), t.foldl max a = a ∨ t.foldl max a ∈ t := by
  intro t
  induction t with
  | nil => intro a; exact Or.inl rfl
  | cons h t ih =>
    intro a
    rcases ih (max a h) with heq | hmem
    · rw [List.foldl_cons, heq]
      rcases max_choice a h with h1 | h1
      · exact Or.inl h1
      · exact Or.inr (by rw [h1]; exact List.mem_cons_self h t)
    · exact Or.inr (List.mem_cons_of_mem h hmem)

theorem le_listMax {ds : List ℚ} {x : ℚ} (hx : x ∈ ds) : x ≤ listMax ds := by
  cases ds with
  | nil => cases hx
  | cons h t =>
    rcases List.mem_cons.mp hx with rfl | hx
    · exact foldl_max_init_le t x
    · exact foldl_max_mem_le t h x hx

theorem listMax_mem {ds : List ℚ} (h : ds ≠ []) : listMax ds ∈ ds := by
  cases ds with
  | nil => exact absurd rfl h
  | cons a t =>
    rcases foldl_max_mem_or t a with heq | hmem
    · rw [listMax, heq]; exact List.mem_cons_self a t
    · exact List.mem_cons_of_mem a hmem

theorem listMin_eq_nth_sortedQ {ds : List ℚ} (h : ds ≠ []) :
    listMin ds = nth (sortedQ ds) 0 := by
  have hpos : 0 < (sortedQ ds).length := by
    rw [sortedQ_length]; exact List.length_pos.mpr h
  apply le_antisymm
  · exact listMin_le ((sortedQ_perm ds).subset (nth_mem hpos))
  · have hmem : listMin ds ∈ sortedQ ds := ((sortedQ_perm ds).mem_iff).mpr (listMin_mem h)
    obtain ⟨k, hk, hkeq⟩ := List.mem_iff_getElem.mp hmem
    have : nth (sortedQ ds) 0 ≤ nth (sortedQ ds) k :=
      nth_of_sorted_le (sortedQ_sorted ds) (Nat.zero_le k) hk
    rwa [show nth (sortedQ ds) k = listMin ds from by
      rw [nth, List.getD_eq_getElem _ _ hk]; exact hkeq] at this

theorem listMax_eq_nth_sortedQ {ds : List ℚ} (h : ds ≠ []) :
    listMax ds = nth (sortedQ ds) ((sortedQ ds).length - 1) := by
  have hpos : 0 < (sortedQ ds).length := by
    rw [sortedQ_length]; exact List.length_pos.mpr h
  have hlast : (sortedQ ds).length - 1 < (sortedQ ds).length := by omega
  apply le_antisymm
  · have hmem : listMax ds ∈ sortedQ ds := ((sortedQ_perm ds).mem_iff).mpr (listMax_mem h)
    obtain ⟨k, hk, hkeq⟩ := List.mem_iff_getElem.mp hmem
    have : nth (sortedQ ds) k ≤ nth (sortedQ ds) ((sortedQ ds).length - 1) :=
      nth_of_sorted_le (sortedQ_sorted ds) (by omega) hlast
    rwa [show nth (sortedQ ds) k = listMax ds from by
      rw [nth, List.getD_eq_getElem _ _ hk]; exact hkeq] at this
  · exact le_listMax ((sortedQ_perm ds).subset (nth_mem hlast))

theorem listMin_perm {ds ds' : List ℚ} (h : ds.Perm ds') : listMin ds = listMin ds' := by
  by_cases hnil : ds = []
  · subst hnil
    rw [h.symm.eq_nil]
  · have hnil' : ds' ≠ [] := fun hh => hnil ((hh ▸ h).eq_nil)
    rw [listMin_eq_nth_sortedQ hnil, listMin_eq_nth_sortedQ hnil', sortedQ_congr h]

theorem listMax_perm {ds ds' : List ℚ} (h : ds.Perm ds') : listMax ds = listMax ds' := by
  by_cases hnil : ds = []
  · subst hnil
    rw [h.symm.eq_nil]
  · have hnil' : ds' ≠ [] := fun hh => hnil ((hh ▸ h).eq_nil)
    rw [listMax_eq_nth_sortedQ hnil, listMax_eq_nth_sortedQ hnil', sortedQ_congr h]

/-! Facts about the collection loop. -/

theorem collect_aux (outs : List ProbeOutcome) : ∀ (p : List ℚ × ℕ),
    (outs.foldl
      (fun acc r => if r.success then (acc.1 ++ [r.duration], acc.2) else (acc.1, acc.2 + 1))
      p).1.length +
    (outs.foldl
      (fun acc r => if r.success then (acc.1 ++ [r.duration], acc.2) else (acc.1, acc.2 + 1))
      p).2 = p.1.length + p.2 + outs.length := by
  induction outs with
  | nil => intro p; simp
  | cons o t ih =>
    intro p
    rw [List.foldl_cons]
    by_cases h : o.success <;> simp only [h, if_true, if_false, ih] <;> simp <;> omega

theorem collect_length (outs : List ProbeOutcome) :
    (collect outs).1.length + (collect outs).2 = outs.length := by
  have := collect_aux outs ([], 0)
  simpa [collect] using this

/-! Facts about the quantile cut points. -/

theorem quantilesExclusive_length (data : List ℚ) (n : ℕ) :
    (quantilesExclusive data n).length = n - 1 := by
  simp [quantilesExclusive]

theorem nth_quantilesExclusive (data : List ℚ) (n k : ℕ) (hk : k < n - 1) :
    nth (quantilesExclusive data n) k = exclusiveCut data n (k + 1) := by
  rw [nth, List.getD_eq_getElem _ _ (by simpa [quantilesExclusive] using hk)]
  simp [quantilesExclusive, exclusiveCut]

theorem p95_latency_eq_cut {ds : List ℚ} (h : 1 < ds.length) :
    p95_latency ds = exclusiveCut ds 20 19 := by
  rw [p95_latency, if_pos h]
  exact nth_quantilesExclusive ds 20 18 (by norm_num)

theorem p99_latency_eq_cut {ds : List ℚ} (h : 1 < ds.length) :
    p99_latency ds = exclusiveCut ds 100 99 := by
  rw [p99_latency, if_pos h]
  exact nth_quantilesExclusive ds 100 98 (by norm_num)

theorem exclusiveCut_eq_affine (data : List ℚ) (n i j : ℕ) (hn : 0 < n)
    (hj : j = if i * ((sortedQ data).length + 1) / n < 1 then 1
          else if i * ((sortedQ data).length + 1) / n > (sortedQ data).length - 1
          then (sortedQ data).length - 1
          else i * ((sortedQ data).length + 1) / n) :
    exclusiveCut data n i
      = nth (sortedQ data) (j - 1)
        + (nth (sortedQ data) j - nth (sortedQ data) (j - 1))
          * ((i : ℚ) * (((sortedQ data).length : ℚ) + 1) / (n : ℚ) - (j : ℚ)) := by
  simp only [exclusiveCut]
  rw [← hj]
  have hn' : ((n : ℚ)) ≠ 0 := Nat.cast_ne_zero.mpr hn.ne'
  push_cast
  field_simp
  ring

theorem affine_mono {d : List ℚ} (hs : d.Sorted (· ≤ ·)) {jA jB : ℕ} {xA xB : ℚ}
    (h1 : 1 ≤ jA) (h12 : jA ≤ jB) (h3 : jB < d.length)
    (hxAB : xA ≤ xB) (hxAlow : (jA : ℚ) ≤ xA) (hxBlow : (jB : ℚ) ≤ xB)
    (hxAup : jA < jB → xA ≤ (jA : ℚ) + 1) :
    nth d (jA - 1) + (nth d jA - nth d (jA - 1)) * (xA - (jA : ℚ))
      ≤ nth d (jB - 1) + (nth d jB - nth d (jB - 1)) * (xB - (jB : ℚ)) := by
  rcases eq_or_lt_of_le h12 with rfl | hlt
  · have hsl : 0 ≤ nth d jA - nth d (jA - 1) :=
      sub_nonneg.mpr (nth_of_sorted_le hs (by omega) h3)
    have hmul := mul_le_mul_of_nonneg_left
      (by linarith : xA - (jA : ℚ) ≤ xB - (jA : ℚ)) hsl
    linarith
  · have hjAd : jA < d.length := by omega
    have ha1b1 : nth d (jA - 1) ≤ nth d jA := nth_of_sorted_le hs (by omega) hjAd
    have hb1a2 : nth d jA ≤ nth d (jB - 1) := nth_of_sorted_le hs (by omega) (by omega)
    have ha2b2 : nth d (jB - 1) ≤ nth d jB := nth_of_sorted_le hs (by omega) h3
    have ht1 : xA - (jA : ℚ) ≤ 1 := by have := hxAup hlt; linarith
    have hup := mul_nonneg (sub_nonneg.mpr ha1b1)
      (by linarith : (0 : ℚ) ≤ 1 - (xA - (jA : ℚ)))
    have hlow := mul_nonneg (sub_nonneg.mpr ha2b2)
      (by linarith : (0 : ℚ) ≤ xB - (jB : ℚ))
    nlinarith [hup, hlow, hb1a2]

theorem affine_between {d : List ℚ} (hs : d.Sorted (· ≤ ·)) {j : ℕ} {x : ℚ}
    (h1 : 1 ≤ j) (h3 : j < d.length) (hxl : (j : ℚ) ≤ x) (hxu : x ≤ (j : ℚ) + 1) :
    nth d (j - 1) ≤ nth d (j - 1) + (nth d j - nth d (j - 1)) * (x - (j : ℚ)) ∧
      nth d (j - 1) + (nth d j - nth d (j - 1)) * (x - (j : ℚ)) ≤ nth d j := by
  have hab : nth d (j - 1) ≤ nth d j := nth_of_sorted_le hs (by omega) h3
  constructor <;>
    nlinarith [mul_nonneg (sub_nonneg.mpr hab) (by linarith : (0 : ℚ) ≤ x - (j : ℚ)),
      mul_nonneg (sub_nonneg.mpr hab) (by linarith : (0 : ℚ) ≤ 1 - (x - (j : ℚ)))]

theorem js_facts (L jA jB : ℕ) (h2 : 2 ≤ L)
    (hA : jA = if 19 * (L + 1) / 20 < 1 then 1
          else if 19 * (L + 1) / 20 > L - 1 then L - 1 else 19 * (L + 1) / 20)
    (hB : jB = if 99 * (L + 1) / 100 < 1 then 1
          else if 99 * (L + 1) / 100 > L - 1 then L - 1 else 99 * (L + 1) / 100) :
    1 ≤ jA ∧ jA ≤ jB ∧ jB ≤ L - 1 ∧ jA * 20 ≤ 19 * (L + 1) ∧ jB * 100 ≤ 99 * (L + 1) ∧
      (jA < jB → 19 * (L + 1) < (jA + 1) * 20) := by
  subst hA
  subst hB
  split_ifs <;> omega

theorem js100_facts (L jA jB : ℕ) (h100 : 100 ≤ L)
    (hA : jA = if 19 * (L + 1) / 20 < 1 then 1
          else if 19 * (L + 1) / 20 > L - 1 then L - 1 else 19 * (L + 1) / 20)
    (hB : jB = if 99 * (L + 1) / 100 < 1 then 1
          else if 99 * (L + 1) / 100 > L - 1 then L - 1 else 99 * (L + 1) / 100) :
    (1 ≤ jA ∧ jA ≤ L - 1 ∧ jA * 20 ≤ 19 * (L + 1) ∧ 19 * (L + 1) ≤ (jA + 1) * 20) ∧
      (1 ≤ jB ∧ jB ≤ L - 1 ∧ jB * 100 ≤ 99 * (L + 1) ∧ 99 * (L + 1) ≤ (jB + 1) * 100) := by
  subst hA
  subst hB
  split_ifs <;> omega

theorem exclusiveCut_95_le_99 (data : List ℚ) (h2 : 2 ≤ data.length) :
    exclusiveCut data 20 19 ≤ exclusiveCut data 100 99 := by
  have hs := sortedQ_sorted data
  have hL : (sortedQ data).length = data.length := sortedQ_length data
  have eA := exclusiveCut_eq_affine data 20 19 _ (by norm_num) rfl
  have eB := exclusiveCut_eq_affine data 100 99 _ (by norm_num) rfl
  obtain ⟨h1, h12, h3, hA20, hB100, hup⟩ :=
    js_facts (sortedQ data).length _ _ (by omega) rfl rfl
  rw [eA, eB]
  apply affine_mono hs h1 h12 (by omega)
  · rw [div_le_div_iff (by norm_num) (by norm_num)]
    have : (0 : ℚ) ≤ ((sortedQ data).length : ℚ) := by positivity
    push_cast
    nlinarith
  · push_cast
    rw [le_div_iff (by norm_num : (0 : ℚ) < 20)]
    exact_mod_cast hA20
  · push_cast
    rw [le_div_iff (by norm_num : (0 : ℚ) < 100)]
    exact_mod_cast hB100
  · intro hlt
    have h19 := (hup hlt).le
    push_cast
    rw [div_le_iff (by norm_num : (0 : ℚ) < 20)]
    exact_mod_cast h19

theorem exclusiveCut95_in_range (data : List ℚ) (h100 : 100 ≤ data.length) :
    nth (sortedQ data) 0 ≤ exclusiveCut data 20 19 ∧
      exclusiveCut data 20 19 ≤ nth (sortedQ data) ((sortedQ data).length - 1) := by
  have hs := sortedQ_sorted data
  have hL : (sortedQ data).length = data.length := sortedQ_length data
  have eA := exclusiveCut_eq_affine data 20 19 _ (by norm_num) rfl
  obtain ⟨⟨h1, h3, hlo, hhi⟩, _⟩ :=
    js100_facts (sortedQ data).length _ _ (by omega) rfl rfl
  rw [eA]
  constructor
  · refine le_trans (nth_of_sorted_le hs (Nat.zero_le _) (by omega))
      (affine_between hs h1 (by omega) ?_ ?_).1
    · push_cast
      rw [le_div_iff (by norm_num : (0 : ℚ) < 20)]
      exact_mod_cast hlo
    · push_cast
      rw [div_le_iff (by norm_num : (0 : ℚ) < 20)]
      exact_mod_cast hhi
  · refine le_trans (affine_between hs h1 (by omega) ?_ ?_).2
      (nth_of_sorted_le hs (by omega) (by omega))
    · push_cast
      rw [le_div_iff (by norm_num : (0 : ℚ) < 20)]
      exact_mod_cast hlo
    · push_cast
      rw [div_le_iff (by norm_num : (0 : ℚ) < 20)]
      exact_mod_cast hhi

theorem exclusiveCut99_in_range (data : List ℚ) (h100 : 100 ≤ data.length) :
    nth (sortedQ data) 0 ≤ exclusiveCut data 100 99 ∧
      exclusiveCut data 100 99 ≤ nth (sortedQ data) ((sortedQ data).length - 1) := by
  have hs := sortedQ_sorted data
  have hL : (sortedQ data).length = data.length := sortedQ_length data
  have eB := exclusiveCut_eq_affine data 100 99 _ (by norm_num) rfl
  obtain ⟨_, ⟨h1, h3, hlo, hhi⟩⟩ :=
    js100_facts (sortedQ data).length _ _ (by omega) rfl rfl
  rw [eB]
  constructor
  · refine le_trans (nth_of_sorted_le hs (Nat.zero_le _) (by omega))
      (affine_between hs h1 (by omega) ?_ ?_).1
    · push_cast
      rw [le_div_iff (by norm_num : (0 : ℚ) < 100)]
      exact_mod_cast hlo
    · push_cast
      rw [div_le_iff (by norm_num : (0 : ℚ) < 100)]
      exact_mod_cast hhi
  · refine le_trans (affine_between hs h1 (by omega) ?_ ?_).2
      (nth_of_sorted_le hs (by omega) (by omega))
    · push_cast
      rw [le_div_iff (by norm_num : (0 : ℚ) < 100)]
      exact_mod_cast hlo
    · push_cast
      rw [div_le_iff (by norm_num : (0 : ℚ) < 100)]
      exact_mod_cast hhi

/-! The aggregated statistics depend only on the multiset of durations. -/

theorem exclusiveCut_congr {ds ds' : List ℚ} (h : ds.Perm ds') (n i : ℕ) :
    exclusiveCut ds n i = exclusiveCut ds' n i := by
  simp only [exclusiveCut, sortedQ_congr h]

theorem median_perm {ds ds' : List ℚ} (h : ds.Perm ds') : median ds = median ds' := by
  simp only [median, sortedQ_congr h]

theorem mean_perm {ds ds' : List ℚ} (h : ds.Perm ds') : mean ds = mean ds' := by
  rw [mean, mean, h.sum_eq, h.length_eq]

theorem singleton_perm_eq {ds ds' : List ℚ} (h : ds.Perm ds') (hlen : ¬1 < ds.length) :
    ds = ds' := by
  cases ds with
  | nil => exact (h.symm.eq_nil).symm
  | cons a t =>
    cases t with
    | nil => exact (List.perm_singleton.mp h.symm).symm
    | cons b u => simp at hlen

theorem p95_latency_perm {ds ds' : List ℚ} (h : ds.Perm ds') :
    p95_latency ds = p95_latency ds' := by
  by_cases h1 : 1 < ds.length
  · have h1' : 1 < ds'.length := h.length_eq ▸ h1
    rw [p95_latency_eq_cut h1, p95_latency_eq_cut h1']
    exact exclusiveCut_congr h 20 19
  · rw [singleton_perm_eq h h1]

theorem p99_latency_perm {ds ds' : List ℚ} (h : ds.Perm ds') :
    p99_latency ds = p99_latency ds' := by
  by_cases h1 : 1 < ds.length
  · have h1' : 1 < ds'.length := h.length_eq ▸ h1
    rw [p99_latency_eq_cut h1, p99_latency_eq_cut h1']
    exact exclusiveCut_congr h 100 99
  · rw [singleton_perm_eq h h1]

theorem summarize_sync_perm {ds ds' : List ℚ} (h : ds.Perm ds') (e : ℕ) (t : ℚ) :
    summarize_sync ds e t = summarize_sync ds' e t := by
  by_cases hnil : ds = []
  · subst hnil
    rw [h.symm.eq_nil]
  · have hnil' : ds' ≠ [] := fun hh => hnil ((hh ▸ h).eq_nil)
    rw [summarize_sync, summarize_sync, if_neg hnil, if_neg hnil']
    simp only [h.length_eq, mean_perm h, median_perm h, p95_latency_perm h,
      p99_latency_perm h, listMin_perm h, listMax_perm h]

theorem summarize_sync_eq_async (ds : List ℚ) (e : ℕ) (t : ℚ) :
    summarize_sync ds e t = summarize_async ds e t := rfl

/-! Claim theorems. -/

/-- C1, counterexample: the quantile scheme is not interpolation-free.  On
the duration list `[0, 1]` the computed p95 is `37/20` and the computed p99
is `197/100`, neither of which is an element of the data (both even exceed
the maximum), so the computed cut points are interpolated values, not
discrete bucket boundaries drawn from the sample. -/
theorem C1_counterexample :
    p95_latency [0, 1] = 37 / 20 ∧ (37 / 20 : ℚ) ∉ ([0, 1] : List ℚ) ∧
      p99_latency [0, 1] = 197 / 100 ∧ (197 / 100 : ℚ) ∉ ([0, 1] : List ℚ) := by
  refine ⟨?_, by norm_num, ?_, by norm_num⟩ <;>
    norm_num [p95_latency, p99_latency, quantilesExclusive, sortedQ, nth, List.range_succ]

/-- C1, amended: for every duration list with at least 2 elements,
`p95_latency` is cut point 18 (0-indexed) of the 19 cut points of the
20-bucket exclusive-method quantile split and `p99_latency` is cut point 98
of the 99 cut points of the 100-bucket split; the cut points are computed
by rank-based linear interpolation between adjacent order statistics
(CPython `statistics.quantiles` default method), not by selecting discrete
data values. -/
theorem C1_amended :
    ∀ ds : List ℚ, 1 < ds.length →
      (quantilesExclusive ds 20).length = 19 ∧ p95_latency ds = exclusiveCut ds 20 19 ∧
        (quantilesExclusive ds 100).length = 99 ∧ p99_latency ds = exclusiveCut ds 100 99 := by
  intro ds h
  exact ⟨by simp [quantilesExclusive_length], p95_latency_eq_cut h,
    by simp [quantilesExclusive_length], p99_latency_eq_cut h⟩

/-- C1, witness for the amended theorem at the concrete list `[1, 2, 3]`. -/
theorem C1_witness :
    1 < ([1, 2, 3] : List ℚ).length ∧
      ((quantilesExclusive [1, 2, 3] 20).length = 19 ∧
        p95_latency [1, 2, 3] = exclusiveCut [1, 2, 3] 20 19 ∧
        (quantilesExclusive [1, 2, 3] 100).length = 99 ∧
        p99_latency [1, 2, 3] = exclusiveCut [1, 2, 3] 100 99) :=
  ⟨by norm_num, C1_amended [1, 2, 3] (by norm_num)⟩

/-- C2: for every probe environment with N ≥ 1 probes and any mix of
successes and failures, the error count plus the number of collected
successful durations equals N, for both the thread-pool driver and the
cooperative-task driver. -/
theorem C2_theorem :
    ∀ nets : List NetResult, 1 ≤ nets.length →
      (collect (nets.map test_single_request)).2 +
          (collect (nets.map test_single_request)).1.length = nets.length ∧
        (collect (nets.map make_request)).2 +
          (collect (nets.map make_request)).1.length = nets.length := by
  intro nets _
  have h1 := collect_length (nets.map test_single_request)
  have h2 := collect_length (nets.map make_request)
  rw [List.length_map] at h1 h2
  omega

/-- C2, witness at a two-probe environment with one success and one
transport failure. -/
theorem C2_witness :
    1 ≤ ([NetResult.response 200 1, NetResult.failure "refused" 2] : List NetResult).length ∧
      ((collect (([NetResult.response 200 1, NetResult.failure "refused" 2] :
            List NetResult).map test_single_request)).2 +
          (collect (([NetResult.response 200 1, NetResult.failure "refused" 2] :
            List NetResult).map test_single_request)).1.length =
          ([NetResult.response 200 1, NetResult.failure "refused" 2] : List NetResult).length ∧
        (collect (([NetResult.response 200 1, NetResult.failure "refused" 2] :
            List NetResult).map make_request)).2 +
          (collect (([NetResult.response 200 1, NetResult.failure "refused" 2] :
            List NetResult).map make_request)).1.length =
          ([NetResult.response 200 1, NetResult.failure "refused" 2] : List NetResult).length) :=
  ⟨by norm_num, C2_theorem _ (by norm_num)⟩

/-- C3: the single-request probe classifies every outcome: a 200 response
yields a successful outcome carrying the duration and status code; any
other status yields a failed outcome carrying both; a transport failure is
caught (the function is total, never raising) and yields a failed outcome
carrying the error message; in all cases the measured duration of the
network interaction is recorded. -/
theorem C3_theorem :
    ∀ (s : ℕ) (d : ℚ) (m : String) (net : NetResult),
      test_single_request (NetResult.response s d) =
        (if s = 200 then
          { success := true, duration := d, status_code := some s, error := none }
         else
          { success := false, duration := d, status_code := some s, error := none }) ∧
      test_single_request (NetResult.failure m d) =
        { success := false, duration := d, status_code := none, error := some m } ∧
      (test_single_request net).duration = net.duration := by
  intro s d m net
  refine ⟨?_, rfl, ?_⟩
  · by_cases hs : s = 200
    · subst hs
      simp [test_single_request]
    · simp [test_single_request, hs]
  · cases net <;> rfl

/-- C6: for every duration sample with at least 2 elements, the computed
p95 latency is less than or equal to the computed p99 latency. -/
theorem C6_theorem :
    ∀ ds : List ℚ, 1 < ds.length → p95_latency ds ≤ p99_latency ds := by
  intro ds h
  rw [p95_latency_eq_cut h, p99_latency_eq_cut h]
  exact exclusiveCut_95_le_99 ds (by omega)

/-- C6, witness at the concrete sample `[1, 2]`. -/
theorem C6_witness :
    1 < ([1, 2] : List ℚ).length ∧ p95_latency [1, 2] ≤ p99_latency [1, 2] :=
  ⟨by norm_num, C6_theorem [1, 2] (by norm_num)⟩

/-- C7: the aggregated summary depends only on the multiset of successful
durations: permuting the duration list leaves every field of the summary
produced by either driver's aggregation tail unchanged. -/
theorem C7_theorem :
    ∀ ds ds' : List ℚ, ds.Perm ds' → ∀ (e : ℕ) (t : ℚ),
      summarize_sync ds e t = summarize_sync ds' e t ∧
        summarize_async ds e t = summarize_async ds' e t := by
  intro ds ds' h e t
  refine ⟨summarize_sync_perm h e t, ?_⟩
  rw [← summarize_sync_eq_async, ← summarize_sync_eq_async]
  exact summarize_sync_perm h e t

/-- C7, witness at the transposed duration lists `[1, 2]` and `[2, 1]`. -/
theorem C7_witness :
    ([1, 2] : List ℚ).Perm [2, 1] ∧
      (summarize_sync [1, 2] 3 5 = summarize_sync [2, 1] 3 5 ∧
        summarize_async [1, 2] 3 5 = summarize_async [2, 1] 3 5) :=
  ⟨List.Perm.swap 2 1 [], C7_theorem [1, 2] [2, 1] (List.Perm.swap 2 1 []) 3 5⟩

/-- C8, counterexample: the gate does not wait a fixed 1-second interval
between attempts in every iteration.  With a network that answers the
first poll with status 503 after half a second and the second with 200,
the two attempts are dispatched at elapsed times 0 and 1/2: the gap is
less than 1 second, so no sleep separated the attempts. -/
theorem C8_counterexample :
    wait_for_service [PollEvent.response 503 (1 / 2), PollEvent.response 200 (1 / 2)] 60 0 =
        some true ∧
      attemptTimes [PollEvent.response 503 (1 / 2), PollEvent.response 200 (1 / 2)] 60 0 =
        [0, 1 / 2] ∧
      ¬((1 : ℚ) ≤ 1 / 2 - 0) := by
  refine ⟨?_, ?_, by norm_num⟩ <;> norm_num [wait_for_service, attemptTimes]

/-- C8, amended: the readiness gate polls the health endpoint until a 200
response (returning true) or until the timeout elapses (returning false);
it sleeps 1 second before the next attempt only after a transport failure
(a caught exception); after a non-200 response it retries immediately with
no sleep. -/
theorem C8_amended :
    ∀ (tout e1 e2 e3 d1 d2 : ℚ) (s : ℕ) (m : String) (r1 r2 evs : List PollEvent),
      (e1 < tout →
        wait_for_service (PollEvent.response s d1 :: r1) tout e1 =
          (if s = 200 then some true else wait_for_service r1 tout (e1 + d1)) ∧
        attemptTimes (PollEvent.response s d1 :: r1) tout e1 =
          (if s = 200 then [e1] else e1 :: attemptTimes r1 tout (e1 + d1))) ∧
      (e2 < tout →
        wait_for_service (PollEvent.failure m d2 :: r2) tout e2 =
          wait_for_service r2 tout (e2 + d2 + 1) ∧
        attemptTimes (PollEvent.failure m d2 :: r2) tout e2 =
          e2 :: attemptTimes r2 tout (e2 + d2 + 1)) ∧
      (tout ≤ e3 →
        wait_for_service evs tout e3 = some false ∧ attemptTimes evs tout e3 = []) := by
  intro tout e1 e2 e3 d1 d2 s m r1 r2 evs
  refine ⟨fun h => ?_, fun h => ?_, fun h => ?_⟩
  · rw [wait_for_service, attemptTimes]
    simp [h]
  · rw [wait_for_service, attemptTimes]
    simp [h]
  · have h' := not_lt.mpr h
    cases evs with
    | nil => rw [wait_for_service, attemptTimes]; simp [h']
    | cons ev rest =>
      cases ev <;> (rw [wait_for_service, attemptTimes]; simp [h'])

/-- C8, witness for the amended theorem at a concrete timeout of 60s with
one non-200 poll, one failing poll and one timed-out state. -/
theorem C8_witness :
    ((0 : ℚ) < 60 ∧
      (wait_for_service [PollEvent.response 503 2] 60 0 =
          (if 503 = 200 then some true else wait_for_service [] 60 (0 + 2)) ∧
        attemptTimes [PollEvent.response 503 2] 60 0 =
          (if 503 = 200 then [0] else 0 :: attemptTimes [] 60 (0 + 2)))) ∧
    ((0 : ℚ) < 60 ∧
      (wait_for_service [PollEvent.failure "refused" 3] 60 0 =
          wait_for_service [] 60 (0 + 3 + 1) ∧
        attemptTimes [PollEvent.failure "refused" 3] 60 0 =
          0 :: attemptTimes [] 60 (0 + 3 + 1))) ∧
    ((60 : ℚ) ≤ 60 ∧
      (wait_for_service [] 60 60 = some false ∧ attemptTimes [] 60 60 = [])) := by
  refine ⟨⟨by norm_num, ?_⟩, ⟨by norm_num, ?_⟩, ⟨by norm_num, ?_⟩⟩
  · exact (C8_amended 60 0 0 60 2 3 503 "refused" [] [] []).1 (by norm_num)
  · exact (C8_amended 60 0 0 60 2 3 503 "refused" [] [] []).2.1 (by norm_num)
  · exact (C8_amended 60 0 0 60 2 3 503 "refused" [] [] []).2.2 (by norm_num)

/-- C10, counterexample: on the duration list `[0, 1]` the computed p95 is
`37/20`, which exceeds the sample maximum 1, so the quantile scheme does
extrapolate outside the observed data range on small samples. -/
theorem C10_counterexample :
    p95_latency [0, 1] = 37 / 20 ∧ listMax [0, 1] = 1 ∧
      ¬(p95_latency [0, 1] ≤ listMax [0, 1]) := by
  have h1 : p95_latency [0, 1] = 37 / 20 := by
    norm_num [p95_latency, quantilesExclusive, sortedQ, nth, List.range_succ]
  have h2 : listMax ([0, 1] : List ℚ) = 1 := by norm_num [listMax]
  refine ⟨h1, h2, ?_⟩
  rw [h1, h2]
  norm_num

/-- C10, amended: for every duration sample with at least 100 elements the
computed p95 and p99 latencies lie within the closed interval bounded by
the sample minimum and maximum; on smaller samples the exclusive quantile
scheme can extrapolate beyond the observed range. -/
theorem C10_amended :
    ∀ ds : List ℚ, 100 ≤ ds.length →
      (listMin ds ≤ p95_latency ds ∧ p95_latency ds ≤ listMax ds) ∧
        (listMin ds ≤ p99_latency ds ∧ p99_latency ds ≤ listMax ds) := by
  intro ds h
  have hnil : ds ≠ [] := by
    intro hh
    rw [hh] at h
    simp at h
  have h1 : 1 < ds.length := by omega
  rw [listMin_eq_nth_sortedQ hnil, listMax_eq_nth_sortedQ hnil,
    p95_latency_eq_cut h1, p99_latency_eq_cut h1]
  exact ⟨exclusiveCut95_in_range ds h, exclusiveCut99_in_range ds h⟩

/-- C10, witness for the amended theorem at a 100-element sample. -/
theorem C10_witness :
    100 ≤ (List.replicate 100 (1 : ℚ)).length ∧
      ((listMin (List.replicate 100 (1 : ℚ)) ≤ p95_latency (List.replicate 100 (1 : ℚ)) ∧
        p95_latency (List.replicate 100 (1 : ℚ)) ≤ listMax (List.replicate 100 (1 : ℚ))) ∧
       (listMin (List.replicate 100 (1 : ℚ)) ≤ p99_latency (List.replicate 100 (1 : ℚ)) ∧
        p99_latency (List.replicate 100 (1 : ℚ)) ≤ listMax (List.replicate 100 (1 : ℚ)))) :=
  ⟨by simp, C10_amended (List.replicate 100 (1 : ℚ)) (by simp)⟩

/-- C4: whenever a driver's list of collected successful durations is
empty, the returned summary carries exactly total_time, errors and
success_rate = 0, and every latency and throughput key is absent
(`none`): no requests_per_second, mean, median, p95, p99, min or max. -/
theorem C4_theorem :
    ∀ (nets : List NetResult) (t : ℚ),
      ((collect (nets.map test_single_request)).1 = [] →
        test_concurrent_sync nets t =
          { total_time := t, requests_per_second := none, mean_latency := none,
            median_latency := none, p95_latency := none, p99_latency := none,
            min_latency := none, max_latency := none,
            errors := (collect (nets.map test_single_request)).2, success_rate := 0 }) ∧
      ((collect (nets.map make_request)).1 = [] →
        test_concurrent_async nets t =
          { total_time := t, requests_per_second := none, mean_latency := none,
            median_latency := none, p95_latency := none, p99_latency := none,
            min_latency := none, max_latency := none,
            errors := (collect (nets.map make_request)).2, success_rate := 0 }) := by
  intro nets t
  constructor
  · intro h
    simp only [test_concurrent_sync]
    rw [h, summarize_sync, if_pos rfl]
  · intro h
    simp only [test_concurrent_async]
    rw [h, summarize_async, if_pos rfl]

/-- C4, witness at a single-probe environment whose only probe fails. -/
theorem C4_witness :
    (collect (([NetResult.failure "down" 1] : List NetResult).map test_single_request)).1 = [] ∧
      test_concurrent_sync [NetResult.failure "down" 1] 7 =
        { total_time := 7, requests_per_second := none, mean_latency := none,
          median_latency := none, p95_latency := none, p99_latency := none,
          min_latency := none, max_latency := none,
          errors := (collect (([NetResult.failure "down" 1] :
            List NetResult).map test_single_request)).2, success_rate := 0 } ∧
      (collect (([NetResult.failure "down" 1] : List NetResult).map make_request)).1 = [] ∧
      test_concurrent_async [NetResult.failure "down" 1] 7 =
        { total_time := 7, requests_per_second := none, mean_latency := none,
          median_latency := none, p95_latency := none, p99_latency := none,
          min_latency := none, max_latency := none,
          errors := (collect (([NetResult.failure "down" 1] :
            List NetResult).map make_request)).2, success_rate := 0 } := by
  have hsync : (collect (([NetResult.failure "down" 1] :
      List NetResult).map test_single_request)).1 = [] := by
    simp [collect, test_single_request]
  have hasync : (collect (([NetResult.failure "down" 1] :
      List NetResult).map make_request)).1 = [] := by
    simp [collect, make_request]
  exact ⟨hsync, (C4_theorem [NetResult.failure "down" 1] 7).1 hsync, hasync,
    (C4_theorem [NetResult.failure "down" 1] 7).2 hasync⟩

/-- C5: for every environment with N > 0 probes, each driver's summary has
success_rate equal to len(durations)/(len(durations)+errors) when at least
one probe succeeds (which by the count invariant equals len(durations)/N),
and equal to 0 when no probe succeeds. -/
theorem C5_theorem :
    ∀ (nets : List NetResult) (t : ℚ), 0 < nets.length →
      ((test_concurrent_sync nets t).success_rate =
        if (collect (nets.map test_single_request)).1 = [] then 0
        else ((collect (nets.map test_single_request)).1.length : ℚ) /
          (((collect (nets.map test_single_request)).1.length : ℚ) +
            ((collect (nets.map test_single_request)).2 : ℚ))) ∧
      ((test_concurrent_sync nets t).success_rate =
        if (collect (nets.map test_single_request)).1 = [] then 0
        else ((collect (nets.map test_single_request)).1.length : ℚ) / (nets.length : ℚ)) ∧
      ((test_concurrent_async nets t).success_rate =
        if (collect (nets.map make_request)).1 = [] then 0
        else ((collect (nets.map make_request)).1.length : ℚ) /
          (((collect (nets.map make_request)).1.length : ℚ) +
            ((collect (nets.map make_request)).2 : ℚ))) ∧
      ((test_concurrent_async nets t).success_rate =
        if (collect (nets.map make_request)).1 = [] then 0
        else ((collect (nets.map make_request)).1.length : ℚ) / (nets.length : ℚ)) := by
  intro nets t _
  have hs := collect_length (nets.map test_single_request)
  have ha := collect_length (nets.map make_request)
  rw [List.length_map] at hs ha
  have hsq : ((collect (nets.map test_single_request)).1.length : ℚ) +
      ((collect (nets.map test_single_request)).2 : ℚ) = (nets.length : ℚ) := by
    exact_mod_cast hs
  have haq : ((collect (nets.map make_request)).1.length : ℚ) +
      ((collect (nets.map make_request)).2 : ℚ) = (nets.length : ℚ) := by
    exact_mod_cast ha
  refine ⟨?_, ?_, ?_, ?_⟩
  · simp only [test_concurrent_sync]
    by_cases h : (collect (nets.map test_single_request)).1 = []
    · rw [if_pos h, h, summarize_sync, if_pos rfl]
    · rw [if_neg h, summarize_sync, if_neg h]
  · rw [← hsq]
    simp only [test_concurrent_sync]
    by_cases h : (collect (nets.map test_single_request)).1 = []
    · rw [if_pos h, h, summarize_sync, if_pos rfl]
    · rw [if_neg h, summarize_sync, if_neg h]
  · simp only [test_concurrent_async]
    by_cases h : (collect (nets.map make_request)).1 = []
    · rw [if_pos h, h, summarize_async, if_pos rfl]
    · rw [if_neg h, summarize_async, if_neg h]
  · rw [← haq]
    simp only [test_concurrent_async]
    by_cases h : (collect (nets.map make_request)).1 = []
    · rw [if_pos h, h, summarize_async, if_pos rfl]
    · rw [if_neg h, summarize_async, if_neg h]

/-- C5, witness at a single-probe environment whose probe succeeds. -/
theorem C5_witness :
    0 < ([NetResult.response 200 2] : List NetResult).length ∧
      (((test_concurrent_sync [NetResult.response 200 2] 4).success_rate =
        if (collect (([NetResult.response 200 2] :
            List NetResult).map test_single_request)).1 = [] then 0
        else ((collect (([NetResult.response 200 2] :
            List NetResult).map test_single_request)).1.length : ℚ) /
          (((collect (([NetResult.response 200 2] :
              List NetResult).map test_single_request)).1.length : ℚ) +
            ((collect (([NetResult.response 200 2] :
              List NetResult).map test_single_request)).2 : ℚ))) ∧
      ((test_concurrent_sync [NetResult.response 200 2] 4).success_rate =
        if (collect (([NetResult.response 200 2] :
            List NetResult).map test_single_request)).1 = [] then 0
        else ((collect (([NetResult.response 200 2] :
            List NetResult).map test_single_request)).1.length : ℚ) /
          (([NetResult.response 200 2] : List NetResult).length : ℚ)) ∧
      ((test_concurrent_async [NetResult.response 200 2] 4).success_rate =
        if (collect (([NetResult.response 200 2] :
            List NetResult).map make_request)).1 = [] then 0
        else ((collect (([NetResult.response 200 2] :
            List NetResult).map make_request)).1.length : ℚ) /
          (((collect (([NetResult.response 200 2] :
              List NetResult).map make_request)).1.length : ℚ) +
            ((collect (([NetResult.response 200 2] :
              List NetResult).map make_request)).2 : ℚ))) ∧
      ((test_concurrent_async [NetResult.response 200 2] 4).success_rate =
        if (collect (([NetResult.response 200 2] :
            List NetResult).map make_request)).1 = [] then 0
        else ((collect (([NetResult.response 200 2] :
            List NetResult).map make_request)).1.length : ℚ) /
          (([NetResult.response 200 2] : List NetResult).length : ℚ))) :=
  ⟨by norm_num, C5_theorem [NetResult.response 200 2] 4 (by norm_num)⟩

/-- C9: the two drivers are equivalent as aggregators: whenever the
thread-pool run and the cooperative-task run collect the same multiset of
successful durations and the same error count, and the same wall time is
measured, the two summaries agree on every field. -/
theorem C9_theorem :
    ∀ (nets1 nets2 : List NetResult) (t : ℚ),
      ((collect (nets1.map test_single_request)).1).Perm
          ((collect (nets2.map make_request)).1) →
      (collect (nets1.map test_single_request)).2 =
          (collect (nets2.map make_request)).2 →
      test_concurrent_sync nets1 t = test_concurrent_async nets2 t := by
  intro n1 n2 t hp he
  simp only [test_concurrent_sync, test_concurrent_async]
  rw [← summarize_sync_eq_async, he]
  exact summarize_sync_perm hp _ _

/-- C9, witness: a thread-pool run observing a 404 then a success in
completion order, against a cooperative run observing the success first
and a transport failure second, with equal duration multisets and error
counts. -/
theorem C9_witness :
    ((collect (([NetResult.response 404 1, NetResult.response 200 3] :
        List NetResult).map test_single_request)).1).Perm
      ((collect (([NetResult.response 200 3, NetResult.failure "refused" 1] :
        List NetResult).map make_request)).1) ∧
    (collect (([NetResult.response 404 1, NetResult.response 200 3] :
        List NetResult).map test_single_request)).2 =
      (collect (([NetResult.response 200 3, NetResult.failure "refused" 1] :
        List NetResult).map make_request)).2 ∧
    test_concurrent_sync [NetResult.response 404 1, NetResult.response 200 3] 5 =
      test_concurrent_async [NetResult.response 200 3, NetResult.failure "refused" 1] 5 := by
  have e1 : collect (([NetResult.response 404 1, NetResult.response 200 3] :
      List NetResult).map test_single_request) = ([3], 1) := by
    simp [collect, test_single_request]
  have e2 : collect (([NetResult.response 200 3, NetResult.failure "refused" 1] :
      List NetResult).map make_request) = ([3], 1) := by
    simp [collect, make_request]
  have hp : ((collect (([NetResult.response 404 1, NetResult.response 200 3] :
      List NetResult).map test_single_request)).1).Perm
      ((collect (([NetResult.response 200 3, NetResult.failure "refused" 1] :
        List NetResult).map make_request)).1) := by
    rw [e1, e2]
  have he : (collect (([NetResult.response 404 1, NetResult.response 200 3] :
      List NetResult).map test_single_request)).2 =
      (collect (([NetResult.response 200 3, NetResult.failure "refused" 1] :
        List NetResult).map make_request)).2 := by
    rw [e1, e2]
  exact ⟨hp, he, C9_theorem _ _ 5 hp he⟩

end TestAll
